import Mathlib

/-!
Verification of the quiz GUI program (src/python/quiz_gui.py) against its
natural-language specification.  The pure computations of the program
(key-point splitting, filename sanitization, note-payload construction,
answer handling, loading and configuration logic) are embedded shallowly:
strings are lists of characters or Lean strings, effects (dialogs,
filesystem writes, process exit) are reified as data, and Python
exceptions are modelled with Option/Except.
-/

namespace Quiz

/-- The whitespace characters recognised by Python str.strip and str.split:
space, tab, newline, carriage return, vertical tab, form feed. -/
def pyIsWs (c : Char) : Bool :=
  c = ' ' || c = '\t' || c = '\n' || c = '\r' || c = Char.ofNat 11 || c = Char.ofNat 12

/-- Python str.strip(): drop whitespace from both ends of the string. -/
def pyStrip (l : List Char) : List Char :=
  ((l.dropWhile pyIsWs).reverse.dropWhile pyIsWs).reverse

/-- str.strip() on a Lean String. -/
def pyStripS (s : String) : String := String.mk (pyStrip s.data)

/-- Python str.split() with no argument: split on runs of whitespace and
drop the empty pieces. -/
def pySplitWs (l : List Char) : List (List Char) :=
  (l.splitOnP pyIsWs).filter (fun p => !p.isEmpty)

/-- The character map performed by knowledge.replace("\n", "|")
(quiz_gui.py lines 57 and 396). -/
def replNl (c : Char) : Char := if c = '\n' then '|' else c

/-- Key-point splitting of the knowledge summary (quiz_gui.py lines 56-57
and 394-396): replace newlines by the pipe character, split on pipes,
strip each piece, drop the empty pieces. -/
def splitPoints (s : List Char) : List (List Char) :=
  (((s.map replNl).splitOn '|').map pyStrip).filter (fun p => !p.isEmpty)

/-- Python "|".join(points), used to state idempotence of the split. -/
def joinPipe (ps : List (List Char)) : List Char := List.intercalate ['|'] ps

/-- The path-unsafe characters removed by _sanitize_filename
(quiz_gui.py line 46). -/
def badChars : List Char := ['<', '>', ':', '"', '/', '\\', '|', '?', '*']

/-- Python name.replace(ch, "") for a single character: delete every
occurrence of ch. -/
def pyReplaceDel (s : List Char) (c : Char) : List Char := s.filter (fun x => x != c)

/-- The removal loop of _sanitize_filename (quiz_gui.py lines 46-48):
name.replace(ch, "") for each path-unsafe character in turn. -/
def removeBad (s : List Char) : List Char := badChars.foldl pyReplaceDel s

/-- _sanitize_filename (quiz_gui.py lines 45-50): delete each path-unsafe
character in turn, collapse whitespace with " ".join(name.split()),
strip, and truncate to 80 characters. -/
def _sanitize_filename (s : List Char) : List Char :=
  let name2 := pyStrip (List.intercalate [' '] (pySplitWs (removeBad s)))
  if 80 < name2.length then name2.take 80 else name2

/-- File name of the exported PDF (quiz_gui.py line 104):
_sanitize_filename(payload.get("topic") or "note") + ".pdf". -/
def pdfFileName (topic : List Char) : List Char :=
  _sanitize_filename (if topic = [] then "note".data else topic) ++ ".pdf".data

/-- Full path of the exported PDF (quiz_gui.py lines 100-105):
notebook_dir / "notes" / filename. -/
def pdfPath (notebookDir topic : List Char) : List Char :=
  notebookDir ++ ('/' :: "notes".data) ++ ('/' :: pdfFileName topic)

/-- A quiz item as loaded from the JSON quiz file (spec section 3):
category, question, options, correctIndex, explanation, knowledgeSummary. -/
structure QuizItem where
  category : String
  question : String
  options : List String
  correctIndex : Int
  explanation : String
  knowledgeSummary : String

/-- Python list indexing, including the negative-index wraparound;
none models an IndexError. -/
def pyGet (l : List String) (i : Int) : Option String :=
  if 0 ≤ i then l.get? i.toNat
  else if 0 ≤ (l.length : Int) + i then l.get? ((l.length : Int) + i).toNat
  else none

/-- chr(65 + i): the letter attached to option position i. -/
def letterChar (i : Int) : Char := Char.ofNat (65 + i).toNat

/-- The letter as a one-character string. -/
def letterStr (i : Int) : String := String.mk [letterChar i]

/-- One labeled section of the note payload. -/
structure NoteSection where
  heading : String
  body : String

/-- The note payload (quiz_gui.py lines 66-93): document model used only
for PDF rendering. -/
structure NotePayload where
  title : String
  topic : String
  summary : String
  sections : List NoteSection
  key_points : List (List Char)
  tableHeaders : List String
  tableRows : List (List String)

/-- The options-table rows (quiz_gui.py line 91): one row
[chr(65 + i), option] per option, indices starting at i. -/
def tableRowsFrom (i : Nat) : List String → List (List String)
  | [] => []
  | o :: os => [String.mk [Char.ofNat (65 + i)], o] :: tableRowsFrom (i + 1) os

/-- _build_note_payload (quiz_gui.py lines 53-93).  The two option
lookups can raise IndexError, modelled by none. -/
def _build_note_payload (q : QuizItem) (selected_index : Int) : Option NotePayload :=
  let correct_index := q.correctIndex
  match pyGet q.options correct_index, pyGet q.options selected_index with
  | some correct_text, some selected_text =>
    let topic := pyStripS q.question
    let expl := pyStripS q.explanation
    some
      { title := if q.category = "" then "Notebook" else q.category
        topic := topic
        summary := if selected_index = correct_index then "Correct" else "Incorrect"
        sections :=
          [⟨"Question", topic⟩,
           ⟨"Your Answer", letterStr selected_index ++ ". " ++ selected_text⟩,
           ⟨"Correct Answer", letterStr correct_index ++ ". " ++ correct_text⟩,
           ⟨"Explanation", if expl = "" then "(No explanation provided)" else expl⟩]
        key_points := splitPoints q.knowledgeSummary.data
        tableHeaders := ["Option", "Text"]
        tableRows := tableRowsFrom 0 q.options }
  | _, _ => none

/-- The mutable state owned by the quiz window (QuizWindow.__init__ and
setup_ui): the answer state, the radiobutton variable, and the parts of
the UI state the specification talks about. -/
structure WinState where
  answered : Bool
  selected_index : Option Int
  selectedVar : Int
  optionsDisabled : Bool
  addBtnEnabled : Bool
  resultBadge : String
  resultLines : List String
deriving DecidableEq

/-- The window state right after setup_ui: not answered, no selection,
radiobutton variable -1, options enabled, export button disabled
(quiz_gui.py lines 198-201, 315, 336, 362). -/
def initWinState : WinState :=
  { answered := false
    selected_index := none
    selectedVar := -1
    optionsDisabled := false
    addBtnEnabled := false
    resultBadge := "Waiting"
    resultLines := [] }

/-- The option labels rendered by setup_ui (quiz_gui.py lines 317-327):
one radiobutton labeled "{chr(65+i)}. {option}" per option. -/
def renderOptionsFrom (i : Nat) : List String → List String
  | [] => []
  | o :: os => (String.mk [Char.ofNat (65 + i)] ++ ". " ++ o) :: renderOptionsFrom (i + 1) os

/-- All rendered option labels of a quiz item. -/
def renderedOptions (q : QuizItem) : List String := renderOptionsFrom 0 q.options

/-- QuizWindow.submit_answer (quiz_gui.py lines 378-424).  Returns the
new window state; none models the IndexError raised by an out-of-range
option lookup. -/
def submit_answer (q : QuizItem) (st : WinState) : Option WinState :=
  if st.answered then some st
  else if st.selectedVar < 0 then some st
  else
    let selected := st.selectedVar
    let correct := q.correctIndex
    let explanation := pyStripS q.explanation
    let points := splitPoints (pyStrip q.knowledgeSummary.data)
    match pyGet q.options correct, pyGet q.options selected with
    | some correct_answer, some selected_answer =>
      let badge := if selected = correct then "Correct" else "Incorrect"
      some
        { st with
          answered := true
          selected_index := some selected
          optionsDisabled := true
          addBtnEnabled := true
          resultBadge := badge
          resultLines :=
            [badge ++ "\n",
             "Your answer: " ++ letterStr selected ++ ". " ++ selected_answer,
             "Correct answer: " ++ letterStr correct ++ ". " ++ correct_answer ++ "\n"]
            ++ (if explanation ≠ "" then ["Explanation", explanation ++ "\n"] else [])
            ++ (if points ≠ [] then "Key points" :: points.map (fun p => "- " ++ String.mk p)
                else []) }
    | _, _ => none

/-- Environment of the PDF export: whether reportlab imported (A4 is not
None) and whether the filesystem writes succeed. -/
structure ExportEnv where
  reportlabAvailable : Bool
  writeOk : Bool
  fsErrorMsg : String

/-- Outcome of the notebook-export action: silently do nothing, show the
saved-info dialog, or show the error dialog. -/
inductive ExportOutcome
  | noop
  | saved (path : List Char)
  | errorDialog (msg : String)
deriving DecidableEq

/-- _write_notebook_pdf (quiz_gui.py lines 96-195): raise RuntimeError if
reportlab is missing, propagate filesystem errors, otherwise write the
PDF and return its path. -/
def _write_notebook_pdf (env : ExportEnv) (notebook_dir : List Char) (payload : NotePayload) :
    Except String (List Char) :=
  if env.reportlabAvailable = false then
    Except.error "reportlab is required. Install with: pip install reportlab"
  else if env.writeOk = false then Except.error env.fsErrorMsg
  else Except.ok (pdfPath notebook_dir payload.topic.data)

/-- QuizWindow.add_to_notebook (quiz_gui.py lines 426-435): no-op before
an answer is recorded; otherwise build the payload and write the PDF
inside try/except, surfacing any exception as an error dialog. -/
def add_to_notebook (env : ExportEnv) (q : QuizItem) (notebook_dir : List Char)
    (st : WinState) : WinState × ExportOutcome :=
  if st.answered = false ∨ st.selected_index = none then (st, ExportOutcome.noop)
  else
    match st.selected_index with
    | none => (st, ExportOutcome.noop)
    | some sel =>
      match _build_note_payload q sel with
      | none => (st, ExportOutcome.errorDialog "list index out of range")
      | some payload =>
        match _write_notebook_pdf env notebook_dir payload with
        | Except.ok p => (st, ExportOutcome.saved p)
        | Except.error e => (st, ExportOutcome.errorDialog e)

/-- The persisted notebook configuration (spec section 3). -/
structure NotebookConfig where
  notebookPath : String
deriving DecidableEq

/-- _default_notebook_dir (quiz_gui.py lines 21-22). -/
def _default_notebook_dir (home : String) : String := home ++ "/Desktop/Notebook"

/-- _config_path (quiz_gui.py lines 25-26). -/
def _config_path (home : String) : String := home ++ "/.live-time-tutorial/config.json"

/-- A filesystem write effect performed by the configuration code. -/
inductive FsWrite
  | mkdirParents (path : String)
  | writeFile (path : String)
deriving DecidableEq

/-- Environment of the configuration code: the user home directory,
whether the config file exists, and the result of reading and parsing it
(none models a raised exception). -/
structure ConfigEnv where
  home : String
  configExists : Bool
  parsedConfig : Option NotebookConfig

/-- _load_config (quiz_gui.py lines 29-36), together with the list of
filesystem writes it performs: if the file exists and parses, return it;
on any failure or absence fall back to the in-memory default. -/
def _load_config (env : ConfigEnv) : NotebookConfig × List FsWrite :=
  if env.configExists then
    match env.parsedConfig with
    | some cfg => (cfg, [])
    | none => (⟨_default_notebook_dir env.home⟩, [])
  else (⟨_default_notebook_dir env.home⟩, [])

/-- _save_config (quiz_gui.py lines 39-42): create the parent directory
and write the config file. -/
def _save_config (env : ConfigEnv) : List FsWrite :=
  [FsWrite.mkdirParents (env.home ++ "/.live-time-tutorial"),
   FsWrite.writeFile (_config_path env.home)]

/-- QuizWindow.change_notebook_path (quiz_gui.py lines 366-376): a
cancelled dialog (empty choice) is a no-op; otherwise the notebook dir
is updated and the config saved. -/
def change_notebook_path (env : ConfigEnv) (chosen : String) (notebook_dir : String) :
    String × List FsWrite :=
  if chosen = "" then (notebook_dir, [])
  else (chosen, _save_config env)

/-- Result of the quiz-data loader: the parsed quiz data, process exit
with an error dialog, or a crash from an uncaught exception. -/
inductive LoadResult (α : Type)
  | ok (q : α)
  | errorExit (msg : String) (code : Nat)
  | crash
deriving DecidableEq

/-- The module-level DEFAULT_QUIZ_DATA (quiz_gui.py line 18): always None
in this file. -/
def DEFAULT_QUIZ_DATA (α : Type) : Option α := none

/-- Python str.endswith on Lean strings, via character lists. -/
def pyEndsWith (s suffix : String) : Bool := suffix.data.isSuffixOf s.data

/-- Environment of the loader: command-line arguments (argv including the
program name), the filesystem, the extraction subprocess, and the JSON
parser (none models a json.JSONDecodeError). -/
structure LoaderEnv (α : Type) where
  argv : List String
  fileExists : String → Bool
  extractReturncode : String → Int
  extractStdout : String → String
  readFile : String → String
  parseJson : String → Option α

/-- The direct-JSON branch of load_quiz_from_args (quiz_gui.py lines
467-475): parse the file as JSON; a JSONDecodeError is caught and turned
into a dialog plus exit code 1. -/
def parseDirect (env : LoaderEnv α) (quizFile : String) : LoadResult α :=
  match env.parseJson (env.readFile quizFile) with
  | some q => LoadResult.ok q
  | none => LoadResult.errorExit ("Failed to parse file: " ++ quizFile) 1

/-- load_quiz_from_args (quiz_gui.py lines 437-475).  Note that the
json.loads of the subprocess output (line 465) is outside any
try/except: its failure is an uncaught exception, modelled by crash. -/
def load_quiz_from_args (env : LoaderEnv α) : LoadResult α :=
  match DEFAULT_QUIZ_DATA α with
  | some q => LoadResult.ok q
  | none =>
    if env.argv.length < 2 then
      LoadResult.errorExit "Usage:\npython quiz_gui.py <quiz file path>" 1
    else
      let quizFile := env.argv.getD 1 ""
      if env.fileExists quizFile = false then
        LoadResult.errorExit ("File not found: " ++ quizFile) 1
      else if pyEndsWith quizFile ".py" then
        if env.extractReturncode quizFile = 0 then
          match env.parseJson (env.extractStdout quizFile) with
          | some q => LoadResult.ok q
          | none => LoadResult.crash
        else parseDirect env quizFile
      else parseDirect env quizFile

/-- The Math example of the specification scenario (spec section 8). -/
def mathItem : QuizItem :=
  { category := "Math"
    question := "2+2?"
    options := ["3", "4", "5"]
    correctIndex := 1
    explanation := "Basic addition"
    knowledgeSummary := "Addition|Integers" }

/-- No two adjacent whitespace characters: the collapsed-whitespace
property of sanitized filenames. -/
def noTwoWs (a b : Char) : Prop := ¬(pyIsWs a = true ∧ pyIsWs b = true)

/-! ### Helper lemmas about splitOnP -/

theorem mem_splitOnP_mem {q : Char → Bool} :
    ∀ {xs pc : List Char} {c : Char}, pc ∈ xs.splitOnP q → c ∈ pc →
      c ∈ xs ∧ q c = false := by
  intro xs
  induction xs with
  | nil =>
    intro pc c hpc hc
    rw [List.splitOnP_nil] at hpc
    rcases List.mem_singleton.mp hpc with rfl
    simp at hc
  | cons x xs ih =>
    intro pc c hpc hc
    rw [List.splitOnP_cons] at hpc
    by_cases hx : q x = true
    · rw [if_pos hx] at hpc
      rcases List.mem_cons.mp hpc with rfl | h2
      · simp at hc
      · obtain ⟨hmem, hq⟩ := ih h2 hc
        exact ⟨List.mem_cons_of_mem _ hmem, hq⟩
    · rw [if_neg hx] at hpc
      rcases hsp : xs.splitOnP q with _ | ⟨r, rs⟩
      · exact absurd hsp (List.splitOnP_ne_nil _ _)
      · rw [hsp, List.modifyHead_cons] at hpc
        rcases List.mem_cons.mp hpc with rfl | h2
        · rcases List.mem_cons.mp hc with rfl | hcr
          · exact ⟨List.mem_cons_self _ _, Bool.not_eq_true _ ▸ hx⟩
          · obtain ⟨hmem, hq⟩ := ih (hsp ▸ List.mem_cons_self r rs) hcr
            exact ⟨List.mem_cons_of_mem _ hmem, hq⟩
        · obtain ⟨hmem, hq⟩ := ih (hsp ▸ List.mem_cons_of_mem r h2) hc
          exact ⟨List.mem_cons_of_mem _ hmem, hq⟩

/-! ### Helper lemmas about pyStrip -/

theorem dropWhile_head_false {q : Char → Bool} :
    ∀ {l : List Char} {a : Char} {t : List Char}, l.dropWhile q = a :: t → q a = false := by
  intro l
  induction l with
  | nil => intro a t h; simp at h
  | cons x xs ih =>
    intro a t h
    by_cases hx : q x = true
    · rw [List.dropWhile_cons_of_pos hx] at h
      exact ih h
    · rw [List.dropWhile_cons_of_neg hx] at h
      cases h
      exact Bool.not_eq_true _ ▸ hx

theorem dropWhile_eq_self_of_head {q : Char → Bool} {l : List Char}
    (h : ∀ c, l.head? = some c → q c = false) : l.dropWhile q = l := by
  cases l with
  | nil => rfl
  | cons x xs =>
    have hx : q x = false := h x rfl
    exact List.dropWhile_cons_of_neg (by simp [hx])

theorem pyStrip_subset {l : List Char} {c : Char} (h : c ∈ pyStrip l) : c ∈ l := by
  unfold pyStrip at h
  rw [List.mem_reverse] at h
  have h1 := List.dropWhile_subset (p := pyIsWs) (l := (l.dropWhile pyIsWs).reverse) h
  rw [List.mem_reverse] at h1
  exact List.dropWhile_subset _ h1

theorem stripL_eq (l : List Char) :
    l.dropWhile pyIsWs =
      pyStrip l ++ ((l.dropWhile pyIsWs).reverse.takeWhile pyIsWs).reverse := by
  calc l.dropWhile pyIsWs = ((l.dropWhile pyIsWs).reverse).reverse :=
        (List.reverse_reverse _).symm
    _ = ((l.dropWhile pyIsWs).reverse.takeWhile pyIsWs ++
          (l.dropWhile pyIsWs).reverse.dropWhile pyIsWs).reverse := by
        rw [List.takeWhile_append_dropWhile]
    _ = pyStrip l ++ ((l.dropWhile pyIsWs).reverse.takeWhile pyIsWs).reverse := by
        rw [List.reverse_append]
        rfl

theorem pyStrip_decomp (l : List Char) :
    ∃ pre suf, (∀ c ∈ pre, pyIsWs c = true) ∧ (∀ c ∈ suf, pyIsWs c = true) ∧
      l = pre ++ pyStrip l ++ suf := by
  refine ⟨l.takeWhile pyIsWs, ((l.dropWhile pyIsWs).reverse.takeWhile pyIsWs).reverse,
    fun c hc => List.mem_takeWhile_imp hc, fun c hc => ?_, ?_⟩
  · rw [List.mem_reverse] at hc
    exact List.mem_takeWhile_imp hc
  · conv_lhs => rw [← List.takeWhile_append_dropWhile (p := pyIsWs) (l := l), stripL_eq l]
    rw [List.append_assoc]

theorem pyStrip_head_false {l : List Char} {a : Char} {t : List Char}
    (h : pyStrip l = a :: t) : pyIsWs a = false := by
  have hd := stripL_eq l
  rw [h] at hd
  exact dropWhile_head_false hd

theorem pyStrip_getLast_false {l : List Char} {a : Char}
    (h : (pyStrip l).getLast? = some a) : pyIsWs a = false := by
  obtain ⟨ys, hys⟩ := List.getLast?_eq_some_iff.mp h
  have hb : (l.dropWhile pyIsWs).reverse.dropWhile pyIsWs = a :: ys.reverse := by
    have : ((l.dropWhile pyIsWs).reverse.dropWhile pyIsWs).reverse = ys ++ [a] := hys
    calc (l.dropWhile pyIsWs).reverse.dropWhile pyIsWs
        = (((l.dropWhile pyIsWs).reverse.dropWhile pyIsWs).reverse).reverse :=
          (List.reverse_reverse _).symm
      _ = (ys ++ [a]).reverse := by rw [this]
      _ = a :: ys.reverse := by simp
  exact dropWhile_head_false hb

theorem pyStrip_eq_self {l : List Char}
    (h1 : ∀ c, l.head? = some c → pyIsWs c = false)
    (h2 : ∀ c, l.getLast? = some c → pyIsWs c = false) : pyStrip l = l := by
  unfold pyStrip
  rw [dropWhile_eq_self_of_head h1]
  rw [dropWhile_eq_self_of_head (fun c hc => h2 c (by rwa [List.head?_reverse] at hc))]
  exact List.reverse_reverse l

theorem pyStrip_idem (l : List Char) : pyStrip (pyStrip l) = pyStrip l := by
  refine pyStrip_eq_self (fun c hc => ?_) (fun c hc => pyStrip_getLast_false hc)
  cases hs : pyStrip l with
  | nil => rw [hs] at hc; simp at hc
  | cons a t =>
    rw [hs] at hc
    cases hc
    exact pyStrip_head_false hs

theorem pyStrip_ws_nil {l : List Char} (h : ∀ c ∈ l, pyIsWs c = true) : pyStrip l = [] := by
  have hdrop : ∀ (m : List Char), (∀ c ∈ m, pyIsWs c = true) → m.dropWhile pyIsWs = [] := by
    intro m
    induction m with
    | nil => intro _; rfl
    | cons x xs ih =>
      intro hm
      rw [List.dropWhile_cons_of_pos (hm x (List.mem_cons_self _ _))]
      exact ih (fun c hc => hm c (List.mem_cons_of_mem _ hc))
  unfold pyStrip
  rw [hdrop l h]
  rfl

/-! ### Helper lemmas about intercalate -/

theorem intercalate_one (s x : List Char) : List.intercalate s [x] = x := by
  simp [List.intercalate]

theorem intercalate_two (s x y : List Char) (zs : List (List Char)) :
    List.intercalate s (x :: y :: zs) = x ++ s ++ List.intercalate s (y :: zs) := by
  simp [List.intercalate, List.intersperse_cons₂, List.append_assoc]

theorem forall_mem_intercalate {P : Char → Prop} {sep : Char} :
    ∀ {ps : List (List Char)}, P sep → (∀ p ∈ ps, ∀ c ∈ p, P c) →
      ∀ c ∈ List.intercalate [sep] ps, P c := by
  intro ps
  induction ps with
  | nil => intro _ _ c hc; simp [List.intercalate] at hc
  | cons p ps ih =>
    intro hsep h c hc
    cases ps with
    | nil => rw [intercalate_one] at hc; exact h p (List.mem_singleton.mpr rfl) c hc
    | cons y zs =>
      rw [intercalate_two] at hc
      rcases List.mem_append.mp hc with h1 | h2
      · rcases List.mem_append.mp h1 with ha | hb
        · exact h p (List.mem_cons_self _ _) c ha
        · rcases List.mem_singleton.mp hb with rfl; exact hsep
      · exact ih hsep (fun r hr => h r (List.mem_cons_of_mem _ hr)) c h2

/-! ### Properties of the key-point split (C3) -/

theorem splitPoints_mem {s p : List Char} (hp : p ∈ splitPoints s) :
    p ≠ [] ∧ pyStrip p = p ∧ ∀ c ∈ p, c ≠ '|' ∧ c ≠ '\n' := by
  unfold splitPoints at hp
  rw [List.mem_filter] at hp
  obtain ⟨hp1, hp2⟩ := hp
  rw [List.mem_map] at hp1
  obtain ⟨q, hq, rfl⟩ := hp1
  refine ⟨by simpa using hp2, pyStrip_idem q, fun c hc => ?_⟩
  have hcq : c ∈ q := pyStrip_subset hc
  have hsp : q ∈ (s.map replNl).splitOnP (fun a => a == '|') := by
    simpa [List.splitOn] using hq
  obtain ⟨hmem, hfalse⟩ := mem_splitOnP_mem hsp hcq
  constructor
  · intro hcpipe
    rw [hcpipe] at hfalse
    simp at hfalse
  · intro hcnl
    rw [List.mem_map] at hmem
    obtain ⟨d, hd, hrepl⟩ := hmem
    by_cases hdn : d = '\n'
    · rw [← hrepl, hdn] at hcnl
      simp [replNl] at hcnl
    · rw [← hrepl] at hcnl
      rw [replNl, if_neg hdn] at hcnl
      exact hdn hcnl

theorem splitPoints_ws_nil {s : List Char} (h : ∀ c ∈ s, pyIsWs c = true) :
    splitPoints s = [] := by
  unfold splitPoints
  rw [List.filter_eq_nil_iff]
  intro p hp
  rw [List.mem_map] at hp
  obtain ⟨q, hq, rfl⟩ := hp
  have hq2 : ∀ c ∈ q, pyIsWs c = true := by
    intro c hc
    have hsp : q ∈ (s.map replNl).splitOnP (fun a => a == '|') := by
      simpa [List.splitOn] using hq
    obtain ⟨hmem, hfalse⟩ := mem_splitOnP_mem hsp hc
    rw [List.mem_map] at hmem
    obtain ⟨d, hd, hrepl⟩ := hmem
    by_cases hdn : d = '\n'
    · rw [← hrepl, hdn] at hfalse
      simp [replNl] at hfalse
    · rw [← hrepl, replNl, if_neg hdn]
      exact h d hd
  rw [pyStrip_ws_nil hq2]
  simp

theorem splitPoints_join_eq (s : List Char) :
    splitPoints (joinPipe (splitPoints s)) = splitPoints s := by
  rcases hps : splitPoints s with _ | ⟨p0, ps0⟩
  · rfl
  · have hne : p0 :: ps0 ≠ [] := List.cons_ne_nil _ _
    have hprops : ∀ p ∈ p0 :: ps0, p ≠ [] ∧ pyStrip p = p ∧ ∀ c ∈ p, c ≠ '|' ∧ c ≠ '\n' :=
      fun p hp => splitPoints_mem (hps ▸ hp)
    have hnl : ∀ c ∈ joinPipe (p0 :: ps0), replNl c = c := by
      refine forall_mem_intercalate (P := fun c => replNl c = c) (by decide) ?_
      intro p hp c hc
      rw [replNl, if_neg ((hprops p hp).2.2 c hc).2]
    have h1 : (joinPipe (p0 :: ps0)).map replNl = joinPipe (p0 :: ps0) := by
      rw [List.map_congr_left hnl, List.map_id']
    have hx : ∀ l ∈ p0 :: ps0, '|' ∉ l :=
      fun l hl hc => ((hprops l hl).2.2 '|' hc).1 rfl
    have h2 : (joinPipe (p0 :: ps0)).splitOn '|' = p0 :: ps0 := by
      unfold joinPipe
      exact List.splitOn_intercalate _ '|' hx hne
    unfold splitPoints
    rw [h1, h2]
    rw [List.map_congr_left (fun p hp => (hprops p hp).2.1), List.map_id']
    rw [List.filter_eq_self.mpr (fun p hp => by simpa using (hprops p hp).1)]

/-! ### Properties of filename sanitization (C4) -/

theorem mem_removeBad {c : Char} {s : List Char} :
    c ∈ removeBad s ↔ c ∈ s ∧ c ∉ badChars := by
  simp only [removeBad, badChars, List.foldl_cons, List.foldl_nil, pyReplaceDel,
    List.mem_filter, List.mem_cons, List.not_mem_nil, bne_iff_ne, ne_eq, or_false]
  tauto

theorem removeBad_append (a b : List Char) :
    removeBad (a ++ b) = removeBad a ++ removeBad b := by
  simp only [removeBad, badChars, List.foldl_cons, List.foldl_nil, pyReplaceDel,
    List.filter_append]

theorem pySplitWs_mem {l p : List Char} (hp : p ∈ pySplitWs l) :
    p ≠ [] ∧ ∀ c ∈ p, pyIsWs c = false ∧ c ∈ l := by
  unfold pySplitWs at hp
  rw [List.mem_filter] at hp
  obtain ⟨hp1, hp2⟩ := hp
  refine ⟨by simpa using hp2, fun c hc => ?_⟩
  obtain ⟨hmem, hfalse⟩ := mem_splitOnP_mem hp1 hc
  exact ⟨hfalse, hmem⟩

theorem pySplitWs_ws_prefix {q : Char → Bool} :
    ∀ {w l : List Char}, (∀ c ∈ w, q c = true) →
      ((w ++ l).splitOnP q).filter (fun p => !p.isEmpty) =
        (l.splitOnP q).filter (fun p => !p.isEmpty) := by
  intro w
  induction w with
  | nil => intro l _; rfl
  | cons x xs ih =>
    intro l hw
    rw [List.cons_append, List.splitOnP_cons, if_pos (hw x (List.mem_cons_self _ _))]
    rw [List.filter_cons]
    simp only [List.isEmpty_nil, Bool.not_true, if_false]
    exact ih (fun c hc => hw c (List.mem_cons_of_mem _ hc))

theorem splitOnP_append_sat {q : Char → Bool} {c : Char} (hc : q c = true) :
    ∀ (l : List Char), (l ++ [c]).splitOnP q = l.splitOnP q ++ [[]] := by
  intro l
  induction l with
  | nil => simp [List.splitOnP_cons, hc]
  | cons x xs ih =>
    rw [List.cons_append, List.splitOnP_cons, List.splitOnP_cons]
    by_cases hx : q x = true
    · rw [if_pos hx, if_pos hx, ih, List.cons_append]
    · rw [if_neg hx, if_neg hx, ih]
      rcases hsp : xs.splitOnP q with _ | ⟨r, rs⟩
      · exact absurd hsp (List.splitOnP_ne_nil _ _)
      · simp

theorem pySplitWs_ws_suffix :
    ∀ {w : List Char}, (∀ c ∈ w, pyIsWs c = true) →
      ∀ (l : List Char), pySplitWs (l ++ w) = pySplitWs l := by
  intro w
  induction w using List.reverseRecOn with
  | nil => intro _ l; rw [List.append_nil]
  | append_singleton ws c ih =>
    intro hw l
    rw [← List.append_assoc]
    unfold pySplitWs
    rw [splitOnP_append_sat (hw c (by simp)) (l ++ ws), List.filter_append,
      show (List.filter (fun p => !p.isEmpty) [([] : List Char)]) = [] from rfl,
      List.append_nil]
    have := ih (fun d hd => hw d (List.mem_append_left _ hd)) l
    unfold pySplitWs at this
    exact this

theorem sanitize_strip (q : List Char) :
    _sanitize_filename (pyStrip q) = _sanitize_filename q := by
  have key : pySplitWs (removeBad (pyStrip q)) = pySplitWs (removeBad q) := by
    obtain ⟨pre, suf, hpre, hsuf, hdec⟩ := pyStrip_decomp q
    conv_rhs => rw [hdec]
    rw [removeBad_append, removeBad_append]
    rw [pySplitWs_ws_suffix
      (fun d hd => hsuf d (mem_removeBad.mp hd).1)]
    have hpre2 : ∀ d ∈ removeBad pre, pyIsWs d = true :=
      fun d hd => hpre d (mem_removeBad.mp hd).1
    have := pySplitWs_ws_prefix (q := pyIsWs) (l := removeBad (pyStrip q)) hpre2
    unfold pySplitWs
    exact this.symm
  unfold _sanitize_filename
  rw [key]

theorem mem_of_head?_eq_some {l : List Char} {c : Char} (h : l.head? = some c) : c ∈ l := by
  cases l with
  | nil => simp at h
  | cons a t =>
    rw [List.head?_cons] at h
    cases Option.some.inj h
    exact List.mem_cons_self _ _

theorem chain'_of_no_ws :
    ∀ {l : List Char}, (∀ c ∈ l, pyIsWs c = false) → List.Chain' noTwoWs l := by
  intro l
  induction l with
  | nil => intro _; exact List.chain'_nil
  | cons a t iht =>
    intro h
    cases t with
    | nil => exact List.chain'_singleton a
    | cons b t2 =>
      refine List.chain'_cons.mpr ⟨?_, iht (fun c hc => h c (List.mem_cons_of_mem _ hc))⟩
      intro hab
      have h1 := hab.1
      rw [h a (List.mem_cons_self _ _)] at h1
      exact Bool.false_ne_true h1

theorem intercalate_ne_nil {y : List Char} (hy : y ≠ []) (zs : List (List Char)) :
    List.intercalate [' '] (y :: zs) ≠ [] := by
  cases zs with
  | nil => rw [intercalate_one]; exact hy
  | cons z zs => rw [intercalate_two]; simp

theorem joined_props :
    ∀ {ps : List (List Char)}, (∀ p ∈ ps, p ≠ [] ∧ ∀ c ∈ p, pyIsWs c = false) →
      List.Chain' noTwoWs (List.intercalate [' '] ps) ∧
      (∀ c, (List.intercalate [' '] ps).head? = some c → pyIsWs c = false) ∧
      (∀ c, (List.intercalate [' '] ps).getLast? = some c → pyIsWs c = false) := by
  intro ps
  induction ps with
  | nil =>
    intro _
    refine ⟨List.chain'_nil, fun c hc => ?_, fun c hc => ?_⟩ <;>
      simp [List.intercalate] at hc
  | cons p ps ih =>
    intro h
    have hp := h p (List.mem_cons_self _ _)
    cases ps with
    | nil =>
      rw [intercalate_one]
      exact ⟨chain'_of_no_ws hp.2, fun c hc => hp.2 c (mem_of_head?_eq_some hc),
        fun c hc => hp.2 c (List.mem_of_getLast?_eq_some hc)⟩
    | cons y zs =>
      have hy := h y (List.mem_cons_of_mem _ (List.mem_cons_self _ _))
      obtain ⟨ihc, ihh, ihl⟩ := ih (fun r hr => h r (List.mem_cons_of_mem _ hr))
      have hJne : List.intercalate [' '] (y :: zs) ≠ [] := intercalate_ne_nil hy.1 zs
      have hshape : List.intercalate [' '] (p :: y :: zs) =
          p ++ (' ' :: List.intercalate [' '] (y :: zs)) := by
        rw [intercalate_two, List.append_assoc, List.singleton_append]
      rw [hshape]
      refine ⟨?_, ?_, ?_⟩
      · rw [List.chain'_append]
        refine ⟨chain'_of_no_ws hp.2, ?_, ?_⟩
        · rcases hJ : List.intercalate [' '] (y :: zs) with _ | ⟨j, js⟩
          · exact absurd hJ hJne
          · refine List.chain'_cons.mpr ⟨?_, hJ ▸ ihc⟩
            intro hws
            have hj : pyIsWs j = false := ihh j (by rw [hJ]; rfl)
            rw [hj] at hws
            exact Bool.false_ne_true hws.2
        · intro x hx yh hyh
          rw [Option.mem_def] at hx
          intro hws
          have hxp : x ∈ p := List.mem_of_getLast?_eq_some hx
          have := hp.2 x hxp
          rw [this] at hws
          exact Bool.false_ne_true hws.1
      · intro c hc
        rcases hps : p with _ | ⟨a, t⟩
        · exact absurd hps hp.1
        · rw [hps, List.cons_append, List.head?_cons] at hc
          cases Option.some.inj hc
          exact hp.2 c (hps ▸ List.mem_cons_self _ _)
      · intro c hc
        rw [List.getLast?_append] at hc
        rcases hJ : List.intercalate [' '] (y :: zs) with _ | ⟨j, js⟩
        · exact absurd hJ hJne
        · rw [hJ, List.getLast?_cons_cons] at hc
          rcases hlast : (j :: js).getLast? with _ | v
          · simp at hlast
          · rw [hlast, Option.or_some] at hc
            cases Option.some.inj hc
            exact ihl c (by rw [hJ, hlast])

theorem sanitize_core (s : List Char) :
    ∃ t : List Char,
      _sanitize_filename s = t.take 80 ∧
      (∀ c ∈ t, c ∉ badChars) ∧
      (∀ c ∈ t, pyIsWs c = true → c = ' ') ∧
      List.Chain' noTwoWs t ∧
      (∀ c, t.head? = some c → pyIsWs c = false) ∧
      (∀ c, t.getLast? = some c → pyIsWs c = false) := by
  have hwords : ∀ p ∈ pySplitWs (removeBad s), p ≠ [] ∧ ∀ c ∈ p, pyIsWs c = false :=
    fun p hp => ⟨(pySplitWs_mem hp).1, fun c hc => ((pySplitWs_mem hp).2 c hc).1⟩
  obtain ⟨hchain, hhead, hlast⟩ := joined_props hwords
  have hstrip : pyStrip (List.intercalate [' '] (pySplitWs (removeBad s))) =
      List.intercalate [' '] (pySplitWs (removeBad s)) := pyStrip_eq_self hhead hlast
  have hmem : ∀ c ∈ List.intercalate [' '] (pySplitWs (removeBad s)),
      c ∉ badChars ∧ (pyIsWs c = true → c = ' ') := by
    refine forall_mem_intercalate (P := fun c => c ∉ badChars ∧ (pyIsWs c = true → c = ' '))
      ⟨by decide, fun _ => rfl⟩ ?_
    intro p hp c hc
    obtain ⟨hcws, hcmem⟩ := (pySplitWs_mem hp).2 c hc
    refine ⟨(mem_removeBad.mp hcmem).2, fun hws => ?_⟩
    rw [hcws] at hws
    exact absurd hws (by simp)
  refine ⟨List.intercalate [' '] (pySplitWs (removeBad s)), ?_,
    fun c hc => (hmem c hc).1, fun c hc => (hmem c hc).2, hchain, hhead, hlast⟩
  unfold _sanitize_filename
  rw [hstrip]
  show (if 80 < (List.intercalate [' '] (pySplitWs (removeBad s))).length
      then List.take 80 (List.intercalate [' '] (pySplitWs (removeBad s)))
      else List.intercalate [' '] (pySplitWs (removeBad s))) =
    List.take 80 (List.intercalate [' '] (pySplitWs (removeBad s)))
  split
  · rfl
  · rename_i h80
    rw [List.take_of_length_le (Nat.le_of_not_lt h80)]

/-! ### Helper lemmas about lookups, rendering and the window operations -/

theorem pyGet_pos {l : List String} {i : Int} (h0 : 0 ≤ i) (h1 : i < (l.length : Int)) :
    ∃ t, pyGet l i = some t := by
  unfold pyGet
  rw [if_pos h0]
  have hlt : i.toNat < l.length := by omega
  exact ⟨l.get ⟨i.toNat, hlt⟩, List.get?_eq_get hlt⟩

theorem renderOptionsFrom_length (i : Nat) (os : List String) :
    (renderOptionsFrom i os).length = os.length := by
  induction os generalizing i with
  | nil => rfl
  | cons o os ih => simp [renderOptionsFrom, ih]

theorem renderOptionsFrom_get? :
    ∀ {os : List String} (i k : Nat) {txt : String}, os.get? k = some txt →
      (renderOptionsFrom i os).get? k =
        some (String.mk [Char.ofNat (65 + (i + k))] ++ ". " ++ txt) := by
  intro os
  induction os with
  | nil => intro i k txt h; simp at h
  | cons o os ih =>
    intro i k txt h
    cases k with
    | zero =>
      rw [List.get?_cons_zero] at h
      cases Option.some.inj h
      simp [renderOptionsFrom]
    | succ k2 =>
      rw [List.get?_cons_succ] at h
      have := ih (i + 1) k2 h
      rw [show i + 1 + k2 = i + (k2 + 1) by omega] at this
      simpa [renderOptionsFrom] using this

theorem tableRowsFrom_length (i : Nat) (os : List String) :
    (tableRowsFrom i os).length = os.length := by
  induction os generalizing i with
  | nil => rfl
  | cons o os ih => simp [tableRowsFrom, ih]

theorem tableRowsFrom_get? :
    ∀ {os : List String} (i k : Nat) {txt : String}, os.get? k = some txt →
      (tableRowsFrom i os).get? k = some [String.mk [Char.ofNat (65 + (i + k))], txt] := by
  intro os
  induction os with
  | nil => intro i k txt h; simp at h
  | cons o os ih =>
    intro i k txt h
    cases k with
    | zero =>
      rw [List.get?_cons_zero] at h
      cases Option.some.inj h
      simp [tableRowsFrom]
    | succ k2 =>
      rw [List.get?_cons_succ] at h
      have := ih (i + 1) k2 h
      rw [show i + 1 + k2 = i + (k2 + 1) by omega] at this
      simpa [tableRowsFrom] using this

theorem submit_answer_eq {q : QuizItem} (st : WinState) {ct sl : String}
    (hans : st.answered = false) (h0 : ¬ st.selectedVar < 0)
    (hc : pyGet q.options q.correctIndex = some ct)
    (hs : pyGet q.options st.selectedVar = some sl) :
    submit_answer q st = some
      { st with
        answered := true
        selected_index := some st.selectedVar
        optionsDisabled := true
        addBtnEnabled := true
        resultBadge := if st.selectedVar = q.correctIndex then "Correct" else "Incorrect"
        resultLines :=
          [(if st.selectedVar = q.correctIndex then "Correct" else "Incorrect") ++ "\n",
           "Your answer: " ++ letterStr st.selectedVar ++ ". " ++ sl,
           "Correct answer: " ++ letterStr q.correctIndex ++ ". " ++ ct ++ "\n"]
          ++ (if pyStripS q.explanation ≠ "" then
                ["Explanation", pyStripS q.explanation ++ "\n"] else [])
          ++ (if splitPoints (pyStrip q.knowledgeSummary.data) ≠ [] then
                "Key points" ::
                  (splitPoints (pyStrip q.knowledgeSummary.data)).map
                    (fun p => "- " ++ String.mk p)
              else []) } := by
  simp only [submit_answer, hans, Bool.false_eq_true, if_false, if_neg h0, hc, hs]

theorem submit_answer_answered {q : QuizItem} {st : WinState} (h : st.answered = true) :
    submit_answer q st = some st := by
  simp only [submit_answer, h, if_true]

theorem add_to_notebook_fst (env : ExportEnv) (q : QuizItem) (dir : List Char)
    (st : WinState) : (add_to_notebook env q dir st).1 = st := by
  unfold add_to_notebook
  split
  · rfl
  · split
    · rfl
    · split
      · rfl
      · split
        · rfl
        · rfl

theorem add_to_notebook_noop {env : ExportEnv} {q : QuizItem} {dir : List Char}
    {st : WinState} (h : st.answered = false ∨ st.selected_index = none) :
    add_to_notebook env q dir st = (st, ExportOutcome.noop) := by
  unfold add_to_notebook
  rw [if_pos h]

theorem add_to_notebook_build_fail {env : ExportEnv} {q : QuizItem} {dir : List Char}
    {st : WinState} {sel : Int} (hans : st.answered = true)
    (hsel : st.selected_index = some sel) (hb : _build_note_payload q sel = none) :
    add_to_notebook env q dir st =
      (st, ExportOutcome.errorDialog "list index out of range") := by
  unfold add_to_notebook
  rw [if_neg (by simp [hans, hsel]), hsel]
  simp only [hb]

theorem add_to_notebook_write {env : ExportEnv} {q : QuizItem} {dir : List Char}
    {st : WinState} {sel : Int} {payload : NotePayload} (hans : st.answered = true)
    (hsel : st.selected_index = some sel) (hb : _build_note_payload q sel = some payload) :
    add_to_notebook env q dir st =
      (st,
        match _write_notebook_pdf env dir payload with
        | Except.ok p => ExportOutcome.saved p
        | Except.error e => ExportOutcome.errorDialog e) := by
  unfold add_to_notebook
  rw [if_neg (by simp [hans, hsel]), hsel]
  simp only [hb]
  cases _write_notebook_pdf env dir payload <;> rfl

theorem build_payload_eq {q : QuizItem} {sel : Int} {ct sl : String}
    (hc : pyGet q.options q.correctIndex = some ct)
    (hs : pyGet q.options sel = some sl) :
    _build_note_payload q sel = some
      { title := if q.category = "" then "Notebook" else q.category
        topic := pyStripS q.question
        summary := if sel = q.correctIndex then "Correct" else "Incorrect"
        sections :=
          [⟨"Question", pyStripS q.question⟩,
           ⟨"Your Answer", letterStr sel ++ ". " ++ sl⟩,
           ⟨"Correct Answer", letterStr q.correctIndex ++ ". " ++ ct⟩,
           ⟨"Explanation", if pyStripS q.explanation = "" then "(No explanation provided)"
             else pyStripS q.explanation⟩]
        key_points := splitPoints q.knowledgeSummary.data
        tableHeaders := ["Option", "Text"]
        tableRows := tableRowsFrom 0 q.options } := by
  simp only [_build_note_payload, hc, hs]

/-! ### The claims -/

/-- C1: for every quiz item whose correctIndex is in range and every
in-range selected index, submit_answer succeeds and its verdict badge is
"Correct" exactly when the selected index equals correctIndex and
"Incorrect" otherwise, and the feedback lines name both the chosen and
the correct option text, each prefixed with its letter; in particular,
for the Math example (correctIndex 1), selecting index 1 yields
"Correct" and selecting index 0 yields "Incorrect" with the feedback
naming "B. 4" as correct. -/
theorem claim_C1_verdict :
    (∀ (q : QuizItem) (sel : Int), 0 ≤ q.correctIndex →
      q.correctIndex < (q.options.length : Int) → 0 ≤ sel →
      sel < (q.options.length : Int) →
      ∃ st2 ct sl rest,
        submit_answer q { initWinState with selectedVar := sel } = some st2 ∧
        pyGet q.options q.correctIndex = some ct ∧
        pyGet q.options sel = some sl ∧
        st2.resultBadge = (if sel = q.correctIndex then "Correct" else "Incorrect") ∧
        st2.resultLines =
          [(if sel = q.correctIndex then "Correct" else "Incorrect") ++ "\n",
           "Your answer: " ++ letterStr sel ++ ". " ++ sl,
           "Correct answer: " ++ letterStr q.correctIndex ++ ". " ++ ct ++ "\n"] ++ rest) ∧
    ((submit_answer mathItem { initWinState with selectedVar := 1 }).map
        WinState.resultBadge = some "Correct") ∧
    ((submit_answer mathItem { initWinState with selectedVar := 0 }).map
        WinState.resultBadge = some "Incorrect") ∧
    ((submit_answer mathItem { initWinState with selectedVar := 0 }).bind
        (fun st2 => st2.resultLines.get? 2) = some "Correct answer: B. 4\n") := by
  refine ⟨?_, by decide, by decide, by decide⟩
  intro q sel h1 h2 h3 h4
  obtain ⟨ct, hct⟩ := pyGet_pos h1 h2
  obtain ⟨sl, hsl⟩ := pyGet_pos h3 h4
  have heq := submit_answer_eq { initWinState with selectedVar := sel }
    rfl (by show ¬ sel < 0; omega) hct hsl
  exact ⟨_, ct, sl, _, heq, hct, hsl, rfl, List.append_assoc _ _ _⟩

/-- C2: the answer state machine moves from Unanswered to Answered
exactly once: at window start answered is false and no index is
selected; the first (in-range) selection sets the answered flag and the
selected index and disables the options while enabling the export
button; a submit on an already-answered state returns the state
unchanged; and the export action never modifies the window state, so
there is no transition back to Unanswered. -/
theorem claim_C2_state_machine :
    (initWinState.answered = false ∧ initWinState.selected_index = none ∧
      initWinState.optionsDisabled = false) ∧
    (∀ (q : QuizItem) (sel : Int), 0 ≤ q.correctIndex →
      q.correctIndex < (q.options.length : Int) → 0 ≤ sel →
      sel < (q.options.length : Int) →
      ∃ st2, submit_answer q { initWinState with selectedVar := sel } = some st2 ∧
        st2.answered = true ∧ st2.selected_index = some sel ∧
        st2.optionsDisabled = true ∧ st2.addBtnEnabled = true) ∧
    (∀ (q : QuizItem) (st : WinState), st.answered = true →
      submit_answer q st = some st) ∧
    (∀ (env : ExportEnv) (q : QuizItem) (dir : List Char) (st : WinState),
      (add_to_notebook env q dir st).1 = st) := by
  refine ⟨⟨rfl, rfl, rfl⟩, ?_, fun q st h => submit_answer_answered h,
    fun env q dir st => add_to_notebook_fst env q dir st⟩
  intro q sel h1 h2 h3 h4
  obtain ⟨ct, hct⟩ := pyGet_pos h1 h2
  obtain ⟨sl, hsl⟩ := pyGet_pos h3 h4
  have heq := submit_answer_eq { initWinState with selectedVar := sel }
    rfl (by show ¬ sel < 0; omega) hct hsl
  exact ⟨_, heq, rfl, rfl, rfl, rfl⟩

/-- C3: the key-point list is obtained by splitting the knowledge
summary on the pipe character and newline, trimming each piece and
dropping empties: splitting "a | b|c" yields exactly ["a", "b", "c"], a
whitespace-only summary yields no points, and splitting the pipe-joined
output of a split changes nothing (idempotence). -/
theorem claim_C3_split_points :
    (splitPoints "a | b|c".data = ["a".data, "b".data, "c".data]) ∧
    (∀ s : List Char, (∀ c ∈ s, pyIsWs c = true) → splitPoints s = []) ∧
    (∀ s : List Char, splitPoints (joinPipe (splitPoints s)) = splitPoints s) :=
  ⟨by decide, fun s h => splitPoints_ws_nil h, fun s => splitPoints_join_eq s⟩

/-- C4: filename sanitization never raises and produces the 80-character
truncation of a string in which every occurrence of each character of
&lt;&gt;:"/\|?* has been removed, every whitespace run is collapsed to a
single space, and leading and trailing whitespace is trimmed; the result
is at most 80 characters and free of path-unsafe characters, and the
exported PDF path is notebookDir/notes/(sanitized question text).pdf
whenever the stripped question text is nonempty. -/
theorem claim_C4_sanitize :
    (∀ s : List Char, ∃ t : List Char,
      _sanitize_filename s = t.take 80 ∧
      (∀ c ∈ t, c ∉ badChars) ∧
      (∀ c ∈ t, pyIsWs c = true → c = ' ') ∧
      List.Chain' noTwoWs t ∧
      (∀ c, t.head? = some c → pyIsWs c = false) ∧
      (∀ c, t.getLast? = some c → pyIsWs c = false)) ∧
    (∀ s : List Char, (_sanitize_filename s).length ≤ 80) ∧
    (∀ s : List Char, ∀ c ∈ _sanitize_filename s, c ∉ badChars) ∧
    (∀ dir q : List Char, pyStrip q ≠ [] →
      pdfPath dir (pyStrip q) =
        dir ++ ('/' :: "notes".data) ++
          ('/' :: (_sanitize_filename q ++ ".pdf".data))) ∧
    (_sanitize_filename "Q: what/is <this>?".data = "Q whatis this".data) := by
  refine ⟨fun s => sanitize_core s, fun s => ?_, fun s c hc => ?_, fun dir q h => ?_, by decide⟩
  · obtain ⟨t, ht, -⟩ := sanitize_core s
    rw [ht, List.length_take]
    exact Nat.min_le_left _ _
  · obtain ⟨t, ht, hbad, -⟩ := sanitize_core s
    rw [ht] at hc
    exact hbad c (List.mem_of_mem_take hc)
  · unfold pdfPath pdfFileName
    rw [if_neg h, sanitize_strip]

/-- C5: the rendered option list and the options-table rows both have
exactly one entry per option, and the entry at position i carries the
letter chr(65 + i), i.e. the letters A, B, C, ... in order. -/
theorem claim_C5_options :
    ∀ (q : QuizItem),
      (renderedOptions q).length = q.options.length ∧
      (tableRowsFrom 0 q.options).length = q.options.length ∧
      (∀ (i : Nat) (txt : String), q.options.get? i = some txt →
        (renderedOptions q).get? i =
          some (String.mk [Char.ofNat (65 + i)] ++ ". " ++ txt) ∧
        (tableRowsFrom 0 q.options).get? i =
          some [String.mk [Char.ofNat (65 + i)], txt]) := by
  intro q
  refine ⟨renderOptionsFrom_length 0 q.options, tableRowsFrom_length 0 q.options, ?_⟩
  intro i txt h
  constructor
  · have := renderOptionsFrom_get? 0 i h
    rwa [Nat.zero_add] at this
  · have := tableRowsFrom_get? 0 i h
    rwa [Nat.zero_add] at this

/-- C6: the loader shows an error dialog and exits with code 1 exactly
when there is no command-line argument, the given file does not exist,
or the direct JSON parse of the file is reached (non-script path, or
script path whose extraction subprocess returned nonzero) and fails; for
a script path whose extraction succeeds it parses the subprocess output
as JSON and returns the parsed item (an unparseable subprocess output is
an uncaught exception, not a dialog); for a non-script path it parses
the file directly and returns the parsed item. -/
theorem claim_C6_loader {α : Type} (env : LoaderEnv α) :
    ((∃ m, load_quiz_from_args env = LoadResult.errorExit m 1) ↔
      (env.argv.length < 2 ∨
        env.fileExists (env.argv.getD 1 "") = false ∨
        (2 ≤ env.argv.length ∧ env.fileExists (env.argv.getD 1 "") = true ∧
          (pyEndsWith (env.argv.getD 1 "") ".py" = false ∨
            env.extractReturncode (env.argv.getD 1 "") ≠ 0) ∧
          env.parseJson (env.readFile (env.argv.getD 1 "")) = none))) ∧
    (∀ v, 2 ≤ env.argv.length → env.fileExists (env.argv.getD 1 "") = true →
      pyEndsWith (env.argv.getD 1 "") ".py" = true →
      env.extractReturncode (env.argv.getD 1 "") = 0 →
      env.parseJson (env.extractStdout (env.argv.getD 1 "")) = some v →
      load_quiz_from_args env = LoadResult.ok v) ∧
    (2 ≤ env.argv.length → env.fileExists (env.argv.getD 1 "") = true →
      pyEndsWith (env.argv.getD 1 "") ".py" = true →
      env.extractReturncode (env.argv.getD 1 "") = 0 →
      env.parseJson (env.extractStdout (env.argv.getD 1 "")) = none →
      load_quiz_from_args env = LoadResult.crash) ∧
    (∀ v, 2 ≤ env.argv.length → env.fileExists (env.argv.getD 1 "") = true →
      pyEndsWith (env.argv.getD 1 "") ".py" = false →
      env.parseJson (env.readFile (env.argv.getD 1 "")) = some v →
      load_quiz_from_args env = LoadResult.ok v) := by
  refine ⟨?_, ?_, ?_, ?_⟩
  · by_cases h2 : env.argv.length < 2
    · have hload : load_quiz_from_args env =
          LoadResult.errorExit "Usage:\npython quiz_gui.py <quiz file path>" 1 := by
        simp only [load_quiz_from_args, DEFAULT_QUIZ_DATA]
        rw [if_pos h2]
      rw [hload]
      exact ⟨fun _ => Or.inl h2, fun _ => ⟨_, rfl⟩⟩
    · by_cases hex : env.fileExists (env.argv.getD 1 "") = true
      · have hexn : ¬(env.fileExists (env.argv.getD 1 "") = false) := by
          intro hcontra; rw [hex] at hcontra; exact absurd hcontra (by decide)
        by_cases hpy : pyEndsWith (env.argv.getD 1 "") ".py" = true
        · by_cases hrc : env.extractReturncode (env.argv.getD 1 "") = 0
          · cases hp : env.parseJson (env.extractStdout (env.argv.getD 1 "")) with
            | none =>
              have hload : load_quiz_from_args env = LoadResult.crash := by
                simp only [load_quiz_from_args, DEFAULT_QUIZ_DATA]
                rw [if_neg h2, if_neg hexn, if_pos hpy, if_pos hrc, hp]
              rw [hload]
              constructor
              · rintro ⟨m, hm⟩; cases hm
              · rintro (h | h | ⟨-, -, hd, -⟩)
                · exact absurd h h2
                · rw [hex] at h; cases h
                · rcases hd with hd | hd
                  · rw [hpy] at hd; cases hd
                  · exact absurd hrc hd
            | some v =>
              have hload : load_quiz_from_args env = LoadResult.ok v := by
                simp only [load_quiz_from_args, DEFAULT_QUIZ_DATA]
                rw [if_neg h2, if_neg hexn, if_pos hpy, if_pos hrc, hp]
              rw [hload]
              constructor
              · rintro ⟨m, hm⟩; cases hm
              · rintro (h | h | ⟨-, -, hd, -⟩)
                · exact absurd h h2
                · rw [hex] at h; cases h
                · rcases hd with hd | hd
                  · rw [hpy] at hd; cases hd
                  · exact absurd hrc hd
          · cases hp : env.parseJson (env.readFile (env.argv.getD 1 "")) with
            | none =>
              have hload : load_quiz_from_args env =
                  LoadResult.errorExit ("Failed to parse file: " ++ env.argv.getD 1 "") 1 := by
                simp only [load_quiz_from_args, DEFAULT_QUIZ_DATA, parseDirect]
                rw [if_neg h2, if_neg hexn, if_pos hpy, if_neg hrc, hp]
              rw [hload]
              exact ⟨fun _ => Or.inr (Or.inr ⟨by omega, hex, Or.inr hrc, rfl⟩),
                fun _ => ⟨_, rfl⟩⟩
            | some v =>
              have hload : load_quiz_from_args env = LoadResult.ok v := by
                simp only [load_quiz_from_args, DEFAULT_QUIZ_DATA, parseDirect]
                rw [if_neg h2, if_neg hexn, if_pos hpy, if_neg hrc, hp]
              rw [hload]
              constructor
              · rintro ⟨m, hm⟩; cases hm
              · rintro (h | h | ⟨-, -, -, hpn⟩)
                · exact absurd h h2
                · rw [hex] at h; cases h
                · exact absurd hpn (Option.some_ne_none v)
        · cases hp : env.parseJson (env.readFile (env.argv.getD 1 "")) with
          | none =>
            have hload : load_quiz_from_args env =
                LoadResult.errorExit ("Failed to parse file: " ++ env.argv.getD 1 "") 1 := by
              simp only [load_quiz_from_args, DEFAULT_QUIZ_DATA, parseDirect]
              rw [if_neg h2, if_neg hexn, if_neg hpy, hp]
            rw [hload]
            refine ⟨fun _ => Or.inr (Or.inr ⟨by omega, hex, Or.inl ?_, rfl⟩),
              fun _ => ⟨_, rfl⟩⟩
            exact Bool.not_eq_true _ ▸ hpy
          | some v =>
            have hload : load_quiz_from_args env = LoadResult.ok v := by
              simp only [load_quiz_from_args, DEFAULT_QUIZ_DATA, parseDirect]
              rw [if_neg h2, if_neg hexn, if_neg hpy, hp]
            rw [hload]
            constructor
            · rintro ⟨m, hm⟩; cases hm
            · rintro (h | h | ⟨-, -, -, hpn⟩)
              · exact absurd h h2
              · rw [hex] at h; cases h
              · exact absurd hpn (Option.some_ne_none v)
      · have hex2 : env.fileExists (env.argv.getD 1 "") = false := Bool.not_eq_true _ ▸ hex
        have hload : load_quiz_from_args env =
            LoadResult.errorExit ("File not found: " ++ env.argv.getD 1 "") 1 := by
          simp only [load_quiz_from_args, DEFAULT_QUIZ_DATA]
          rw [if_neg h2, if_pos hex2]
        rw [hload]
        exact ⟨fun _ => Or.inr (Or.inl hex2), fun _ => ⟨_, rfl⟩⟩
  · intro v h2 hex hpy hrc hp
    have hexn : ¬(env.fileExists (env.argv.getD 1 "") = false) := by
      intro hcontra; rw [hex] at hcontra; exact absurd hcontra (by decide)
    simp only [load_quiz_from_args, DEFAULT_QUIZ_DATA]
    rw [if_neg (Nat.not_lt.mpr h2), if_neg hexn, if_pos hpy, if_pos hrc, hp]
  · intro h2 hex hpy hrc hp
    have hexn : ¬(env.fileExists (env.argv.getD 1 "") = false) := by
      intro hcontra; rw [hex] at hcontra; exact absurd hcontra (by decide)
    simp only [load_quiz_from_args, DEFAULT_QUIZ_DATA]
    rw [if_neg (Nat.not_lt.mpr h2), if_neg hexn, if_pos hpy, if_pos hrc, hp]
  · intro v h2 hex hpy hp
    have hexn : ¬(env.fileExists (env.argv.getD 1 "") = false) := by
      intro hcontra; rw [hex] at hcontra; exact absurd hcontra (by decide)
    have hpyn : ¬(pyEndsWith (env.argv.getD 1 "") ".py" = true) := by
      intro hcontra; rw [hpy] at hcontra; exact absurd hcontra (by decide)
    simp only [load_quiz_from_args, DEFAULT_QUIZ_DATA, parseDirect]
    rw [if_neg (Nat.not_lt.mpr h2), if_neg hexn, if_neg hpyn, hp]

/-- C7: the notebook-export action never changes the window state, and
every failure inside it — an out-of-range lookup while building the
payload, a missing reportlab dependency, a filesystem error while
writing — is surfaced as an error dialog rather than propagating; on
success it shows the saved-info dialog with the PDF path. -/
theorem claim_C7_export_errors (env : ExportEnv) (q : QuizItem) (dir : List Char)
    (st : WinState) :
    (add_to_notebook env q dir st).1 = st ∧
    (∀ sel, st.answered = true → st.selected_index = some sel →
      (_build_note_payload q sel = none →
        (add_to_notebook env q dir st).2 =
          ExportOutcome.errorDialog "list index out of range") ∧
      (∀ payload, _build_note_payload q sel = some payload →
        (env.reportlabAvailable = false →
          (add_to_notebook env q dir st).2 = ExportOutcome.errorDialog
            "reportlab is required. Install with: pip install reportlab") ∧
        (env.reportlabAvailable = true → env.writeOk = false →
          (add_to_notebook env q dir st).2 = ExportOutcome.errorDialog env.fsErrorMsg) ∧
        (env.reportlabAvailable = true → env.writeOk = true →
          (add_to_notebook env q dir st).2 =
            ExportOutcome.saved (pdfPath dir payload.topic.data)))) := by
  refine ⟨add_to_notebook_fst env q dir st, ?_⟩
  intro sel hans hsel
  constructor
  · intro hb
    rw [add_to_notebook_build_fail hans hsel hb]
  · intro payload hb
    refine ⟨fun hrl => ?_, fun hrl hw => ?_, fun hrl hw => ?_⟩ <;>
      rw [add_to_notebook_write hans hsel hb] <;>
      simp [_write_notebook_pdf, hrl]
    · simp [hw]
    · simp [hw]

/-- C8: invoking the notebook-export action before an answer is
recorded is a no-op — the state is unchanged and no payload is built and
no PDF written — and the export button is created disabled. -/
theorem claim_C8_export_rejected_before_answer :
    (∀ (env : ExportEnv) (q : QuizItem) (dir : List Char) (st : WinState),
      st.answered = false ∨ st.selected_index = none →
      add_to_notebook env q dir st = (st, ExportOutcome.noop)) ∧
    initWinState.addBtnEnabled = false :=
  ⟨fun _ _ _ _ h => add_to_notebook_noop h, rfl⟩

/-- C9 counterexample: when the config file is absent, _load_config
performs no filesystem write whatsoever — in particular it does not
create the config file with the default notebook path — it merely
returns the in-memory default configuration. -/
theorem claim_C9_counterexample :
    _load_config ⟨"/home/user", false, none⟩ =
      (⟨"/home/user/Desktop/Notebook"⟩, ([] : List FsWrite)) ∧
    (_load_config ⟨"/home/user", false, none⟩).2 = [] :=
  ⟨rfl, rfl⟩

/-- C9 (amended): the configuration is read from the fixed per-user path
at startup; _load_config never writes to the filesystem — when the file
is absent or unreadable the default notebook path home/Desktop/Notebook
is used in memory only — and the config file is written exactly when
the user picks a new notebook folder. -/
theorem claim_C9_config :
    (∀ env : ConfigEnv, (_load_config env).2 = []) ∧
    (∀ env : ConfigEnv, env.configExists = false →
      (_load_config env).1 = ⟨_default_notebook_dir env.home⟩) ∧
    (∀ env : ConfigEnv, env.configExists = true → env.parsedConfig = none →
      (_load_config env).1 = ⟨_default_notebook_dir env.home⟩) ∧
    (∀ (env : ConfigEnv) (cfg : NotebookConfig), env.configExists = true →
      env.parsedConfig = some cfg → _load_config env = (cfg, [])) ∧
    (∀ (env : ConfigEnv) (dir : String), change_notebook_path env "" dir = (dir, [])) ∧
    (∀ (env : ConfigEnv) (dir c : String), c ≠ "" →
      change_notebook_path env c dir =
        (c, [FsWrite.mkdirParents (env.home ++ "/.live-time-tutorial"),
             FsWrite.writeFile (_config_path env.home)])) := by
  refine ⟨?_, ?_, ?_, ?_, ?_, ?_⟩
  · intro env
    unfold _load_config
    split
    · cases env.parsedConfig <;> rfl
    · rfl
  · intro env h
    simp [_load_config, h]
  · intro env h1 h2
    simp [_load_config, h1, h2]
  · intro env cfg h1 h2
    simp [_load_config, h1, h2]
  · intro env dir
    simp [change_notebook_path]
  · intro env dir c h
    simp [change_notebook_path, _save_config, _config_path, h]

/-- C10: under the QuizItem invariant (correctIndex in range) and for
every in-range selected index, building the note payload is total: both
option lookups succeed and the payload has exactly the four sections
Question, Your Answer, Correct Answer and Explanation, with the
Explanation body falling back to "(No explanation provided)" when the
stripped explanation is empty. -/
theorem claim_C10_payload_total :
    ∀ (q : QuizItem) (sel : Int), 0 ≤ q.correctIndex →
      q.correctIndex < (q.options.length : Int) → 0 ≤ sel →
      sel < (q.options.length : Int) →
      ∃ p ct sl, pyGet q.options q.correctIndex = some ct ∧
        pyGet q.options sel = some sl ∧
        _build_note_payload q sel = some p ∧
        p.sections.map NoteSection.heading =
          ["Question", "Your Answer", "Correct Answer", "Explanation"] ∧
        (p.sections.map NoteSection.body).get? 3 =
          some (if pyStripS q.explanation = "" then "(No explanation provided)"
            else pyStripS q.explanation) := by
  intro q sel h1 h2 h3 h4
  obtain ⟨ct, hct⟩ := pyGet_pos h1 h2
  obtain ⟨sl, hsl⟩ := pyGet_pos h3 h4
  exact ⟨_, ct, sl, hct, hsl, build_payload_eq hct hsl, rfl, rfl⟩

/-! ### Witnesses -/

/-- Witness for C1 at the Math example with selection 0. -/
theorem claim_C1_witness :
    ∃ st2 ct sl rest,
      submit_answer mathItem { initWinState with selectedVar := 0 } = some st2 ∧
      pyGet mathItem.options mathItem.correctIndex = some ct ∧
      pyGet mathItem.options 0 = some sl ∧
      st2.resultBadge =
        (if (0 : Int) = mathItem.correctIndex then "Correct" else "Incorrect") ∧
      st2.resultLines =
        [(if (0 : Int) = mathItem.correctIndex then "Correct" else "Incorrect") ++ "\n",
         "Your answer: " ++ letterStr 0 ++ ". " ++ sl,
         "Correct answer: " ++ letterStr mathItem.correctIndex ++ ". " ++ ct ++ "\n"]
          ++ rest :=
  claim_C1_verdict.1 mathItem 0 (by decide) (by decide) (by decide) (by decide)

/-- Witness for C2: the first in-range selection on the Math example. -/
theorem claim_C2_witness :
    ∃ st2, submit_answer mathItem { initWinState with selectedVar := 2 } = some st2 ∧
      st2.answered = true ∧ st2.selected_index = some 2 ∧
      st2.optionsDisabled = true ∧ st2.addBtnEnabled = true :=
  claim_C2_state_machine.2.1 mathItem 2 (by decide) (by decide) (by decide) (by decide)

/-- Witness for C3: a whitespace-only summary yields no key points. -/
theorem claim_C3_witness : splitPoints " \t ".data = [] :=
  claim_C3_split_points.2.1 " \t ".data (by decide)

/-- Witness for C4: the PDF path of a concrete stripped question text. -/
theorem claim_C4_witness :
    pdfPath "/nb".data (pyStrip " 2+2? ".data) =
      "/nb".data ++ ('/' :: "notes".data) ++
        ('/' :: (_sanitize_filename " 2+2? ".data ++ ".pdf".data)) :=
  claim_C4_sanitize.2.2.2.1 "/nb".data " 2+2? ".data (by decide)

/-- Witness for C5: position 1 of the Math example carries letter B. -/
theorem claim_C5_witness :
    (renderedOptions mathItem).get? 1 =
      some (String.mk [Char.ofNat (65 + 1)] ++ ". " ++ "4") ∧
    (tableRowsFrom 0 mathItem.options).get? 1 =
      some [String.mk [Char.ofNat (65 + 1)], "4"] :=
  (claim_C5_options mathItem).2.2 1 "4" (by decide)

/-- Witness for C6: a concrete non-script environment whose file parses. -/
theorem claim_C6_witness :
    load_quiz_from_args
      { argv := ["quiz_gui.py", "quiz.json"]
        fileExists := fun _ => true
        extractReturncode := fun _ => 1
        extractStdout := fun _ => ""
        readFile := fun _ => "json"
        parseJson := fun s => if s = "json" then some (42 : Nat) else none } =
      LoadResult.ok 42 :=
  (claim_C6_loader _).2.2.2 42 (by decide) rfl (by decide) (by decide)

/-- Witness for C7: a missing reportlab dependency on an answered state
is surfaced as the error dialog. -/
theorem claim_C7_witness :
    (add_to_notebook ⟨false, true, "disk full"⟩ mathItem "/nb".data
        { initWinState with answered := true, selected_index := some 1 }).2 =
      ExportOutcome.errorDialog
        "reportlab is required. Install with: pip install reportlab" :=
  (((claim_C7_export_errors ⟨false, true, "disk full"⟩ mathItem "/nb".data
      { initWinState with answered := true, selected_index := some 1 }).2
    1 rfl rfl).2 _ rfl).1 rfl

/-- Witness for C8: exporting from the initial state is a no-op. -/
theorem claim_C8_witness :
    add_to_notebook ⟨true, true, ""⟩ mathItem "/nb".data initWinState =
      (initWinState, ExportOutcome.noop) :=
  claim_C8_export_rejected_before_answer.1 ⟨true, true, ""⟩ mathItem "/nb".data
    initWinState (Or.inl rfl)

/-- Witness for C9 (amended): changing the notebook folder to a nonempty
path saves the config file at the fixed per-user path. -/
theorem claim_C9_witness :
    change_notebook_path ⟨"/home/user", true, none⟩ "/new/nb" "/old/nb" =
      ("/new/nb", [FsWrite.mkdirParents "/home/user/.live-time-tutorial",
        FsWrite.writeFile (_config_path "/home/user")]) :=
  claim_C9_config.2.2.2.2.2 ⟨"/home/user", true, none⟩ "/old/nb" "/new/nb" (by decide)

/-- Witness for C10 at the Math example with selection 0. -/
theorem claim_C10_witness :
    ∃ p ct sl, pyGet mathItem.options mathItem.correctIndex = some ct ∧
      pyGet mathItem.options 0 = some sl ∧
      _build_note_payload mathItem 0 = some p ∧
      p.sections.map NoteSection.heading =
        ["Question", "Your Answer", "Correct Answer", "Explanation"] ∧
      (p.sections.map NoteSection.body).get? 3 =
        some (if pyStripS mathItem.explanation = "" then "(No explanation provided)"
          else pyStripS mathItem.explanation) :=
  claim_C10_payload_total mathItem 0 (by decide) (by decide) (by decide) (by decide)

end Quiz
